import Mathlib

/-!
# nvme-mi-daemon: device lifecycle, poll scheduler and health-poll request

A shallow embedding of `src/main.cpp` (class `Application`, struct
`DeviceUpdateHandler`) and `src/drive.cpp` (class `Drive`).

Modelling conventions

* `mctpw::eid_t` is an unsigned byte in the MCTP library; no arithmetic is done
  on endpoint ids, so they are natural numbers here.
* `std::unordered_map<eid_t, shared_ptr<Drive>>` is a list of key/value pairs;
  `emplace` leaves the map alone when the key is present, `erase` removes the
  entries of a key and returns how many were removed.
* `std::string` is `String`; a byte buffer `std::vector<uint8_t>` is a list of
  natural numbers below 256.
* What the collaborators answer (the location lookup, whether constructing the
  `Drive` throws, the error codes of the timer waits, the transport's reply) is
  passed in as arguments.
* A coroutine spawned for a `deviceAdded` event is run to its end before the
  next event is looked at; `createDrive` itself has no suspension point.
* `phosphor::logging::log` appends an entry to `Application.log`.
-/

namespace nvmemi

/-- Endpoint id (`mctpw::eid_t`). -/
abbrev eid_t := Nat

/-- Severity of a journal entry (`phosphor::logging::level`). -/
inductive Level where
  | DEBUG
  | INFO
  | WARNING
  | ERR
  deriving DecidableEq

/-- One call of `phosphor::logging::log`: level, message, and the `EID=` entry
when one is attached. -/
structure LogEntry where
  level : Level
  msg : String
  eid : Option eid_t
  deriving DecidableEq

namespace thresholds

/-- The enum `nvmemi::thresholds::Level`. -/
inductive Level where
  | warning
  | critical
  deriving DecidableEq

/-- The enum `nvmemi::thresholds::Direction`. -/
inductive Direction where
  | high
  | low
  deriving DecidableEq

/-- A threshold `(level, direction, value)`; the values used are whole
numbers, kept as integers. -/
structure Threshold where
  level : Level
  direction : Direction
  value : Int
  deriving DecidableEq

end thresholds

/-- The constant `nvmeTemperatureMin` of drive.cpp. -/
def nvmeTemperatureMin : Int := -60

/-- The constant `nvmeTemperatureMax` of drive.cpp. -/
def nvmeTemperatureMax : Int := 127

/-- The function `getDefaultThresholds` of drive.cpp. -/
def getDefaultThresholds : List thresholds.Threshold :=
  [ ⟨thresholds.Level.critical, thresholds.Direction.high, 115⟩,
    ⟨thresholds.Level.critical, thresholds.Direction.low, 0⟩,
    ⟨thresholds.Level.warning, thresholds.Direction.high, 110⟩,
    ⟨thresholds.Level.warning, thresholds.Direction.low, 5⟩ ]

/-! ## Name sanitization: `std::regex_replace(name, "[^a-zA-Z0-9_/]+", "_")` -/

/-- Membership in the character class `[a-zA-Z0-9_/]`. -/
def isAllowed (c : Char) : Bool :=
  ('a' ≤ c && c ≤ 'z') || ('A' ≤ c && c ≤ 'Z') || ('0' ≤ c && c ≤ '9')
    || c == '_' || c == '/'

/-- The scan of `regex_replace` for the pattern `[^a-zA-Z0-9_/]+` and the
replacement `_`: characters outside a match are copied, each match (a maximal
run of characters outside the class) becomes one `_`. The flag tells whether
the scan is inside a match. -/
def regexReplaceAux : Bool → List Char → List Char
  | _, [] => []
  | inMatch, c :: cs =>
    if isAllowed c then c :: regexReplaceAux false cs
    else if inMatch then regexReplaceAux true cs
    else '_' :: regexReplaceAux true cs

/-- The call `std::regex_replace(driveName, std::regex("[^a-zA-Z0-9_/]+"), "_")`. -/
def sanitize (driveName : String) : String :=
  ⟨regexReplaceAux false driveName.data⟩

/-- The member `subsystemTemp` (a numeric sensor): what the constructor of
`Drive` passes to it. -/
structure NumericSensor where
  name : String
  thresholds : List thresholds.Threshold
  minValue : Int
  maxValue : Int
  deriving DecidableEq

/-- The class `nvmemi::Drive`. -/
structure Drive where
  name : String
  subsystemTemp : NumericSensor
  mctpEid : eid_t
  deriving DecidableEq

/-- The object the constructor `Drive::Drive` initializes when nothing throws:
the name is the sanitized `driveName`, the sensor is named `driveName + "_Temp"`
and gets the default thresholds and the temperature range. -/
def Drive.built (driveName : String) (eid : eid_t) : Drive :=
  { name := sanitize driveName
    subsystemTemp :=
      { name := driveName ++ "_Temp"
        thresholds := getDefaultThresholds
        minValue := nvmeTemperatureMin
        maxValue := nvmeTemperatureMax }
    mctpEid := eid }

/-- The constructor `Drive::Drive`, called through `std::make_shared`;
`sensorThrows` says whether building the sensor object on the object server
throws, in which case no `Drive` is made. -/
def Drive.new (driveName : String) (eid : eid_t) (sensorThrows : Bool) : Option Drive :=
  if sensorThrows then none else some (Drive.built driveName eid)

/-! ## The registry `Application::DriveMap` -/

/-- The type `Application::DriveMap`. -/
abbrev DriveMap := List (eid_t × Drive)

/-- Lookup of a key (`find`). -/
def DriveMap.find (m : DriveMap) (k : eid_t) : Option Drive :=
  List.lookup k m

/-- The keys of the registry. -/
def DriveMap.keys (m : DriveMap) : List eid_t :=
  m.map Prod.fst

/-- The call `unordered_map::emplace`: inserts only when the key is absent; the
flag tells whether an insertion took place. -/
def DriveMap.emplace (m : DriveMap) (k : eid_t) (v : Drive) : DriveMap × Bool :=
  if (DriveMap.find m k).isSome then (m, false) else (m ++ [(k, v)], true)

/-- The call `unordered_map::erase(key)`: removes the entries of the key and
returns how many were removed. -/
def DriveMap.erase (m : DriveMap) (k : eid_t) : DriveMap × Nat :=
  let m' := m.filter (fun p => p.1 != k)
  (m', m.length - m'.length)

/-! ## The class `Application` -/

/-- The width of `size_t`, the type of `driveCounter`, on a 64-bit target. -/
def sizeBits : Nat := 64

/-- The mutable members of `Application` that the lifecycle code touches.
`pollTimer` is `none` for a null pointer and `some t` for the timer numbered
`t`; `timersCreated` counts the timers made so far, `pollTasks` the `doPoll`
coroutines spawned so far, `cancelled` lists the timers on which `cancel` was
called. -/
structure Application where
  drives : DriveMap
  driveCounter : Nat
  pollTimer : Option Nat
  timersCreated : Nat
  pollTasks : Nat
  cancelled : List Nat
  log : List LogEntry
  deriving DecidableEq

/-- The state after the constructor `Application()` and the default member
initializers. -/
def Application.new : Application :=
  { drives := []
    driveCounter := 1
    pollTimer := none
    timersCreated := 0
    pollTasks := 0
    cancelled := []
    log := [] }

/-- Appends a journal entry. -/
def Application.logMsg (app : Application) (level : Level) (msg : String)
    (eid : Option eid_t) : Application :=
  { app with log := app.log ++ [⟨level, msg, eid⟩] }

/-- The method `Application::getDriveName`; `driveLocation` is what
`wrapper->getDeviceLocation(eid)` returned. -/
def Application.getDriveName (app : Application) (driveLocation : Option String) :
    String × Application :=
  match driveLocation with
  | some location => ("NVMe_" ++ location, app)
  | none =>
    let driveName := "NVMeDrive" ++ toString app.driveCounter
    (driveName, { app with driveCounter := (app.driveCounter + 1) % 2 ^ sizeBits })

/-- The method `Application::pauseHealthStatusPolling`. -/
def Application.pauseHealthStatusPolling (app : Application) : Application :=
  let app1 :=
    match app.pollTimer with
    | some t => { app with cancelled := app.cancelled ++ [t], pollTimer := none }
    | none => app
  app1.logMsg Level.INFO "health status polling paused" none

/-- The method `Application::resumeHealthStatusPolling`. -/
def Application.resumeHealthStatusPolling (app : Application) : Application :=
  let app1 :=
    match app.pollTimer with
    | none =>
      { app with
        pollTimer := some app.timersCreated
        timersCreated := app.timersCreated + 1
        pollTasks := app.pollTasks + 1 }
    | some _ => app
  app1.logMsg Level.INFO "health status polling resumed" none

/-- The scheduler part of the state: the timer handle, the number of timers
made, the number of loop tasks spawned, the timers cancelled. -/
structure Scheduler where
  pollTimer : Option Nat
  timersCreated : Nat
  pollTasks : Nat
  cancelled : List Nat
  deriving DecidableEq

/-- The scheduler part of an `Application`. -/
def Application.sched (app : Application) : Scheduler :=
  { pollTimer := app.pollTimer
    timersCreated := app.timersCreated
    pollTasks := app.pollTasks
    cancelled := app.cancelled }

/-! ## The struct `DeviceUpdateHandler` -/

/-- The method `DeviceUpdateHandler::createDrive`. `location` is the answer of
the location lookup made by `getDriveName`, `sensorThrows` whether the
constructor of `Drive` throws. The handler's binding type is the one under
which `Application::init` stored the wrapper, so `mctpWrappers.at` finds it. -/
def DeviceUpdateHandler.createDrive (app : Application) (eid : eid_t)
    (location : Option String) (sensorThrows : Bool) : Bool × Application :=
  let (driveName, app1) := app.getDriveName location
  let (status, app2) :=
    match Drive.new driveName eid sensorThrows with
    | some drive =>
      (true,
        ({ app1 with drives := (DriveMap.emplace app1.drives eid drive).1 }).logMsg
          Level.INFO "New drive inserted" (some eid))
    | none =>
      (false, app1.logMsg Level.WARNING "Error while creating Drive object" (some eid))
  let app3 :=
    if app2.drives.length = 1 then app2.resumeHealthStatusPolling else app2
  (status, app3)

/-- What the collaborators answer during one pass of the retry loop. -/
structure AttemptEnv where
  firstWaitFails : Bool
  location : Option String
  sensorThrows : Bool
  secondWaitFails : Bool
  deriving DecidableEq

/-- The outcome of the coroutine spawned for a `deviceAdded` event: the final
state, the flag `driveCreated`, and the number of calls of `createDrive`. -/
structure AddResult where
  app : Application
  driveCreated : Bool
  attempts : Nat
  deriving DecidableEq

/-- The loop `while (!driveCreated && retryCount > 0)` of the `deviceAdded`
coroutine, entered with `driveCreated == false`. `retryCount` is the loop
variable, `pass` the number of passes made so far, `env pass` what the
collaborators answer in that pass. -/
def DeviceUpdateHandler.retryLoop (env : Nat → AttemptEnv) (eid : eid_t) :
    (retryCount : Nat) → (pass : Nat) → Application → AddResult
  | 0, pass, app => ⟨app, false, pass⟩
  | retryCount + 1, pass, app =>
    -- timer.async_wait(yield[ec]) for 400 ms: `ec` is not looked at
    let e := env pass
    -- retryCount--; driveCreated = createDrive(evt.eid);
    let (driveCreated, app1) :=
      DeviceUpdateHandler.createDrive app eid e.location e.sensorThrows
    if driveCreated then ⟨app1, true, pass + 1⟩
    else
      -- timer.async_wait(yield[ec]) for 300 ms; if (ec) break;
      if e.secondWaitFails then ⟨app1, false, pass + 1⟩
      else DeviceUpdateHandler.retryLoop env eid retryCount (pass + 1) app1

/-- The coroutine spawned for a `deviceAdded` event (`retryCount = 3`). -/
def DeviceUpdateHandler.deviceAdded (app : Application) (eid : eid_t)
    (env : Nat → AttemptEnv) : AddResult :=
  DeviceUpdateHandler.retryLoop env eid 3 0 app

/-- The `deviceRemoved` case of `DeviceUpdateHandler::operator()`. -/
def DeviceUpdateHandler.deviceRemoved (app : Application) (eid : eid_t) : Application :=
  let (drives1, n) := DriveMap.erase app.drives eid
  let app1 := { app with drives := drives1 }
  let app2 :=
    if n = 1 then app1.logMsg Level.INFO "Drive removed" (some eid)
    else app1.logMsg Level.ERR "No drive found mapped to eid" (some eid)
  if app2.drives.isEmpty then app2.pauseHealthStatusPolling else app2

/-- The enum `mctpw::Event::EventType`, as far as the handler tells the values
apart. -/
inductive EventType where
  | deviceAdded
  | deviceRemoved
  | other
  deriving DecidableEq

/-- The struct `mctpw::Event`. -/
structure Event where
  type : EventType
  eid : eid_t
  deriving DecidableEq

/-- The call operator `DeviceUpdateHandler::operator()`; `env` is what the
collaborators answer to the coroutine of a `deviceAdded` event. -/
def DeviceUpdateHandler.call (app : Application) (evt : Event)
    (env : Nat → AttemptEnv) : Application :=
  match evt.type with
  | EventType.deviceAdded => (DeviceUpdateHandler.deviceAdded app evt.eid env).app
  | EventType.deviceRemoved => DeviceUpdateHandler.deviceRemoved app evt.eid
  | EventType.other => app

/-- The journal entries that `createDrive` writes itself, one per call. -/
def isCreateDriveEntry (e : LogEntry) : Bool :=
  e.msg == "New drive inserted" || e.msg == "Error while creating Drive object"

/-- The number of calls of `createDrive` recorded in the journal. -/
def Application.createDriveCalls (app : Application) : Nat :=
  app.log.countP isCreateDriveEntry

/-- A sequence of events handled one after the other; the coroutine of the
event number `i` is answered by `envs i`. -/
def runEvents (app : Application) : List Event → (Nat → Nat → AttemptEnv) → Nat → Application
  | [], _, _ => app
  | evt :: rest, envs, i =>
    runEvents (DeviceUpdateHandler.call app evt (envs i)) rest envs (i + 1)

/-! ## The health poll of `Drive` (drive.cpp) and the message codec -/

/-- Modelled from the spec: the constants of the message class
`ManagementInterfaceMessage` and of the request word `RequestDWord1`, whose
headers (`protocol/mi_msg.hpp`, `protocol/mi/subsystem_hs_poll.hpp`) are not
among the sources. `minSize` is the size of a message without its checksum,
`opCodeOffset` the position of the opcode byte, `subsystemHealthStatusPoll` the
opcode of the health poll, `dword1Offset` the position of the control word
DWord1 (little-endian), `clearStatusBit` the bit of the flag in that word. -/
structure MiLayout where
  minSize : Nat
  opCodeOffset : Nat
  subsystemHealthStatusPoll : Nat
  dword1Offset : Nat
  clearStatusBit : Nat
  deriving DecidableEq

/-- The constraints a layout satisfies: the opcode is one byte inside the
message, the control word lies inside the message and does not overlap the
opcode byte, the flag is one of its 32 bits. -/
def MiLayout.wf (L : MiLayout) : Prop :=
  L.opCodeOffset < L.minSize ∧ L.subsystemHealthStatusPoll < 256 ∧
  L.dword1Offset + 4 ≤ L.minSize ∧ L.clearStatusBit < 32 ∧
  (L.opCodeOffset < L.dword1Offset ∨ L.dword1Offset + 4 ≤ L.opCodeOffset)

instance (L : MiLayout) : Decidable L.wf := by
  unfold MiLayout.wf
  infer_instance

/-- The size of the checksum, `sizeof(Message::CRC32C)`. -/
def crcSize : Nat := 4

/-- One bit step of the reflected CRC with the Castagnoli polynomial. -/
def crc32cBit (crc : Nat) : Nat :=
  if crc % 2 = 1 then (crc / 2) ^^^ 0x82F63B78 else crc / 2

/-- One byte step of the CRC. -/
def crc32cByte (crc : Nat) (b : Nat) : Nat :=
  crc32cBit^[8] (crc ^^^ (b % 256))

/-- Modelled from the spec: the checksum CRC-32C (Castagnoli) of a byte
sequence, computed by `setCRC` in the absent header: initial value
`0xFFFFFFFF`, bits processed low first, final complement. -/
def crc32c (data : List Nat) : Nat :=
  (data.foldl crc32cByte 0xFFFFFFFF) ^^^ 0xFFFFFFFF

/-- The four bytes of a 32-bit value, low byte first. -/
def le32 (x : Nat) : List Nat :=
  [x % 256, x / 256 % 256, x / 65536 % 256, x / 16777216 % 256]

/-- The value of a little-endian byte sequence. -/
def fromLE : List Nat → Nat
  | [] => 0
  | b :: bs => b % 256 + 256 * fromLE bs

/-- Modelled from the spec: the constructor of the absent message class
`ManagementInterfaceMessage` wraps the buffer and writes no byte of it (the
request of the spec has zero bytes besides the opcode and the checksum). -/
def ManagementInterfaceMessage.new (buf : List Nat) : List Nat :=
  buf

/-- Modelled from the spec: `setMiOpCode` of the absent message class writes
the opcode into the opcode byte. -/
def ManagementInterfaceMessage.setMiOpCode (L : MiLayout) (buf : List Nat) (opCode : Nat) :
    List Nat :=
  buf.set L.opCodeOffset (opCode % 256)

/-- Modelled from the spec: the assignment to the bit field `clearStatus` of
the control word DWord1 reached through `getDWord1`. -/
def ManagementInterfaceMessage.setClearStatus (L : MiLayout) (buf : List Nat) (v : Bool) :
    List Nat :=
  let i := L.dword1Offset + L.clearStatusBit / 8
  let old := buf.getD i 0
  let cleared := old - (if old.testBit (L.clearStatusBit % 8) then 2 ^ (L.clearStatusBit % 8) else 0)
  buf.set i (if v then cleared + 2 ^ (L.clearStatusBit % 8) else cleared)

/-- Modelled from the spec: `setCRC` of the absent message class stores the
CRC-32C of every byte before the last four in the last four bytes,
little-endian. -/
def ManagementInterfaceMessage.setCRC (buf : List Nat) : List Nat :=
  buf.take (buf.length - crcSize) ++ le32 (crc32c (buf.take (buf.length - crcSize)))

/-- Modelled from the spec: the validation of a received message by the codec
of the absent header: a buffer shorter than the minimum frame is rejected, and
so is one whose last four bytes are not the CRC-32C of the bytes before. -/
def ManagementInterfaceMessage.decodeResponse (L : MiLayout) (buf : List Nat) :
    Option (List Nat) :=
  if buf.length < L.minSize + crcSize then none
  else if fromLE (buf.drop (buf.length - crcSize)) = crc32c (buf.take (buf.length - crcSize))
  then some buf else none

/-- One hexadecimal digit, lower case. -/
def hexDigit (n : Nat) : Char :=
  if n < 10 then Char.ofNat (48 + n) else Char.ofNat (87 + n)

/-- The function `getHexString` of drive.cpp: every byte as two hexadecimal
digits followed by a blank. -/
def getHexString (bytes : List Nat) : String :=
  String.join (bytes.map fun b => String.mk [hexDigit (b / 16 % 16), hexDigit (b % 16), ' '])

/-- The constant `hsPollTimeout` of the absent header drive.hpp, in
milliseconds; main.cpp gives the value in a comment. -/
def hsPollTimeout : Nat := 300

/-- The request buffer `reqBuffer` that `Drive::pollSubsystemHealthStatus`
builds (the statements before the send): a zeroed buffer of `minSize` plus
checksum bytes, the opcode, the flag `clearStatus = false`, the checksum. -/
def Drive.buildRequest (L : MiLayout) : List Nat :=
  let reqSize := L.minSize + crcSize
  let reqBuffer := List.replicate reqSize 0
  let reqBuffer := ManagementInterfaceMessage.new reqBuffer
  let reqBuffer := ManagementInterfaceMessage.setMiOpCode L reqBuffer L.subsystemHealthStatusPoll
  let reqBuffer := ManagementInterfaceMessage.setClearStatus L reqBuffer false
  ManagementInterfaceMessage.setCRC reqBuffer

/-- What one call of `Drive::pollSubsystemHealthStatus` does: the arguments
given to `sendReceiveYield` and the journal entries written. -/
structure PollTrace where
  eid : eid_t
  request : List Nat
  timeout : Nat
  log : List LogEntry
  deriving DecidableEq

/-- The method `Drive::pollSubsystemHealthStatus`. `sendReceiveYield` is the
transport: it answers an error code (`none` when there is no error) and the
response bytes. -/
def Drive.pollSubsystemHealthStatus (L : MiLayout) (drive : Drive)
    (sendReceiveYield : eid_t → List Nat → Nat → Option String × List Nat) : PollTrace :=
  let reqBuffer := Drive.buildRequest L
  let log1 : List LogEntry := [⟨Level.DEBUG, getHexString reqBuffer, none⟩]
  let (ec, response) := sendReceiveYield drive.mctpEid reqBuffer hsPollTimeout
  match ec with
  | some _ =>
    ⟨drive.mctpEid, reqBuffer, hsPollTimeout,
      log1 ++ [⟨Level.ERR, "Poll Subsystem health status error", none⟩]⟩
  | none =>
    -- TODO Add sensor update
    ⟨drive.mctpEid, reqBuffer, hsPollTimeout,
      log1 ++ [⟨Level.DEBUG, getHexString response, none⟩]⟩

/-- A poll reports a failure when it writes a journal entry above the debug
level; the method returns nothing and has no other effect. -/
def PollTrace.reportsFailure (t : PollTrace) : Bool :=
  t.log.any (fun e => e.level != Level.DEBUG)

/-- A concrete layout for the evaluations: a message of 16 bytes with the
opcode at byte 4, the control word DWord1 at bytes 12 to 15 and the flag in its
top bit; opcode 1. -/
def exampleLayout : MiLayout :=
  { minSize := 16
    opCodeOffset := 4
    subsystemHealthStatusPoll := 1
    dword1Offset := 12
    clearStatusBit := 31 }

/-- The request for `exampleLayout` with the lowest bit of its first byte
flipped: a frame whose checksum no longer matches. -/
def flippedFrame : List Nat :=
  (Drive.buildRequest exampleLayout).set 0 1

/-! ## Concrete environments and states used in the evaluations -/

/-- Every wait completes normally, the location lookup finds no location (the
drive gets a fallback name), the construction does not throw. -/
def allGoodEnv : Nat → AttemptEnv :=
  fun _ => ⟨false, none, false, false⟩

/-- The state after a `deviceAdded` event for endpoint 5 on a fresh
`Application`: one drive, named `NVMeDrive1`, polling running. -/
def registeredFive : Application :=
  DeviceUpdateHandler.call Application.new ⟨EventType.deviceAdded, 5⟩ allGoodEnv

/-- The state `registeredFive` after `PauseHealthStatusPoll(true)` on the
control interface: one drive, polling paused. -/
def pausedFive : Application :=
  registeredFive.pauseHealthStatusPolling

open DeviceUpdateHandler

/-! ## Lemmas: scheduler and registry -/

theorem logMsg_fields (app : Application) (l : Level) (m : String) (e : Option eid_t) :
    (app.logMsg l m e).drives = app.drives ∧
    (app.logMsg l m e).driveCounter = app.driveCounter ∧
    (app.logMsg l m e).pollTimer = app.pollTimer ∧
    (app.logMsg l m e).timersCreated = app.timersCreated ∧
    (app.logMsg l m e).pollTasks = app.pollTasks ∧
    (app.logMsg l m e).cancelled = app.cancelled :=
  ⟨rfl, rfl, rfl, rfl, rfl, rfl⟩

theorem resume_drives (app : Application) :
    app.resumeHealthStatusPolling.drives = app.drives := by
  unfold Application.resumeHealthStatusPolling
  cases app.pollTimer <;> rfl

theorem resume_of_some (app : Application) (t : Nat) (h : app.pollTimer = some t) :
    app.resumeHealthStatusPolling =
      app.logMsg Level.INFO "health status polling resumed" none := by
  unfold Application.resumeHealthStatusPolling
  rw [h]

theorem resume_of_none (app : Application) (h : app.pollTimer = none) :
    app.resumeHealthStatusPolling =
      ({ app with
          pollTimer := some app.timersCreated
          timersCreated := app.timersCreated + 1
          pollTasks := app.pollTasks + 1 } : Application).logMsg
        Level.INFO "health status polling resumed" none := by
  unfold Application.resumeHealthStatusPolling
  rw [h]

theorem pause_of_none (app : Application) (h : app.pollTimer = none) :
    app.pauseHealthStatusPolling =
      app.logMsg Level.INFO "health status polling paused" none := by
  unfold Application.pauseHealthStatusPolling
  rw [h]

theorem pause_of_some (app : Application) (t : Nat) (h : app.pollTimer = some t) :
    app.pauseHealthStatusPolling =
      ({ app with cancelled := app.cancelled ++ [t], pollTimer := none } : Application).logMsg
        Level.INFO "health status polling paused" none := by
  unfold Application.pauseHealthStatusPolling
  rw [h]

theorem pause_drives (app : Application) :
    app.pauseHealthStatusPolling.drives = app.drives := by
  unfold Application.pauseHealthStatusPolling
  cases app.pollTimer <;> rfl

theorem pause_pollTimer (app : Application) :
    app.pauseHealthStatusPolling.pollTimer = none := by
  cases h : app.pollTimer with
  | none => rw [pause_of_none app h]; exact h
  | some t => rw [pause_of_some app t h]; rfl

theorem getDriveName_drives (app : Application) (loc : Option String) :
    (app.getDriveName loc).2.drives = app.drives := by
  cases loc <;> rfl

theorem getDriveName_sched (app : Application) (loc : Option String) :
    (app.getDriveName loc).2.pollTimer = app.pollTimer ∧
    (app.getDriveName loc).2.timersCreated = app.timersCreated ∧
    (app.getDriveName loc).2.pollTasks = app.pollTasks ∧
    (app.getDriveName loc).2.cancelled = app.cancelled := by
  cases loc <;> exact ⟨rfl, rfl, rfl, rfl⟩

theorem find_append_single (m : DriveMap) (k e : eid_t) (d : Drive) :
    DriveMap.find (m ++ [(e, d)]) k =
      if (DriveMap.find m k).isSome then DriveMap.find m k
      else if k = e then some d else none := by
  unfold DriveMap.find
  induction m with
  | nil =>
    by_cases h : k = e
    · subst h; simp [List.lookup]
    · have h2 : (k == e) = false := by simpa using h
      simp [List.lookup, h2, h]
  | cons p m ih =>
    obtain ⟨a, b⟩ := p
    by_cases h : k = a
    · subst h; simp [List.lookup]
    · have h2 : (k == a) = false := by simpa using h
      rw [List.cons_append, List.lookup_cons, List.lookup_cons, h2]
      exact ih

theorem find_filter_ne (m : DriveMap) (k e : eid_t) :
    DriveMap.find (m.filter (fun p => p.1 != e)) k =
      if k = e then none else DriveMap.find m k := by
  unfold DriveMap.find
  induction m with
  | nil => simp [List.lookup]
  | cons p m ih =>
    obtain ⟨a, b⟩ := p
    by_cases hae : a = e
    · rw [List.filter_cons_of_neg (by simpa using hae), ih]
      by_cases hk : k = e
      · simp [hk]
      · have h2 : (k == a) = false := by rw [hae]; simpa using hk
        rw [List.lookup_cons, h2]
    · rw [List.filter_cons_of_pos (by simpa using hae)]
      by_cases hk : k = a
      · subst hk; simp [List.lookup, hae]
      · have h2 : (k == a) = false := by simpa using hk
        rw [List.lookup_cons, List.lookup_cons, h2]
        exact ih

theorem find_isSome_iff_mem_keys (m : DriveMap) (k : eid_t) :
    (DriveMap.find m k).isSome = true ↔ k ∈ DriveMap.keys m := by
  unfold DriveMap.find DriveMap.keys
  induction m with
  | nil => simp [List.lookup]
  | cons p m ih =>
    obtain ⟨a, b⟩ := p
    by_cases hk : k = a
    · subst hk; simp [List.lookup]
    · have h2 : (k == a) = false := by simpa using hk
      rw [List.lookup_cons, h2]
      simp [hk, ih]

theorem filter_eq_self_of_find_none (m : DriveMap) (e : eid_t)
    (h : DriveMap.find m e = none) : m.filter (fun p => p.1 != e) = m := by
  have hk : e ∉ DriveMap.keys m := by
    rw [← find_isSome_iff_mem_keys, h]; simp
  apply List.filter_eq_self.mpr
  intro p hp
  have : p.1 ≠ e := by
    intro hpe
    apply hk
    unfold DriveMap.keys
    exact List.mem_map.mpr ⟨p, hp, hpe⟩
  simpa using this

/-! ## Lemmas: `createDrive` and the retry loop -/

theorem createDrive_throws (app : Application) (eid : eid_t) (loc : Option String) :
    createDrive app eid loc true =
      (false,
        if (app.getDriveName loc).2.drives.length = 1 then
          ((app.getDriveName loc).2.logMsg Level.WARNING
            "Error while creating Drive object" (some eid)).resumeHealthStatusPolling
        else
          (app.getDriveName loc).2.logMsg Level.WARNING
            "Error while creating Drive object" (some eid)) := by
  cases loc <;> rfl

theorem createDrive_ok (app : Application) (eid : eid_t) (loc : Option String) :
    createDrive app eid loc false =
      (true,
        if (DriveMap.emplace (app.getDriveName loc).2.drives eid
              (Drive.built (app.getDriveName loc).1 eid)).1.length = 1 then
          (({ (app.getDriveName loc).2 with
              drives := (DriveMap.emplace (app.getDriveName loc).2.drives eid
                (Drive.built (app.getDriveName loc).1 eid)).1 } : Application).logMsg
            Level.INFO "New drive inserted" (some eid)).resumeHealthStatusPolling
        else
          ({ (app.getDriveName loc).2 with
              drives := (DriveMap.emplace (app.getDriveName loc).2.drives eid
                (Drive.built (app.getDriveName loc).1 eid)).1 } : Application).logMsg
            Level.INFO "New drive inserted" (some eid)) := by
  cases loc <;> rfl

theorem createDrive_fst (app : Application) (eid : eid_t) (loc : Option String)
    (thr : Bool) : (createDrive app eid loc thr).1 = !thr := by
  cases thr
  · rw [createDrive_ok]; rfl
  · rw [createDrive_throws]; rfl

theorem createDrive_throws_drives (app : Application) (eid : eid_t) (loc : Option String) :
    (createDrive app eid loc true).2.drives = app.drives := by
  rw [createDrive_throws]
  dsimp only
  split
  · rw [resume_drives]; exact getDriveName_drives app loc
  · exact getDriveName_drives app loc

theorem createDrive_ok_drives (app : Application) (eid : eid_t) (loc : Option String) :
    (createDrive app eid loc false).2.drives =
      (DriveMap.emplace app.drives eid (Drive.built (app.getDriveName loc).1 eid)).1 := by
  rw [createDrive_ok]
  dsimp only
  rw [getDriveName_drives]
  split
  · rw [resume_drives]; rfl
  · rfl

theorem retryLoop_succ (env : Nat → AttemptEnv) (eid : eid_t) (rc pass : Nat)
    (app : Application) :
    retryLoop env eid (rc + 1) pass app =
      if (env pass).sensorThrows then
        if (env pass).secondWaitFails then
          ⟨(createDrive app eid (env pass).location true).2, false, pass + 1⟩
        else
          retryLoop env eid rc (pass + 1) (createDrive app eid (env pass).location true).2
      else ⟨(createDrive app eid (env pass).location false).2, true, pass + 1⟩ := by
  rw [retryLoop]
  cases h : (env pass).sensorThrows
  · simp [createDrive_ok]
  · simp [createDrive_throws]

theorem logMsg_sched (app : Application) (l : Level) (m : String) (e : Option eid_t) :
    (app.logMsg l m e).sched = app.sched := rfl

theorem getDriveName_sched_eq (app : Application) (loc : Option String) :
    (app.getDriveName loc).2.sched = app.sched := by
  cases loc <;> rfl

theorem resume_sched_of_some (app : Application) (t : Nat) (h : app.pollTimer = some t) :
    app.resumeHealthStatusPolling.sched = app.sched := by
  rw [resume_of_some app t h]; rfl

theorem resume_sched_of_none (app : Application) (h : app.pollTimer = none) :
    app.resumeHealthStatusPolling.sched =
      { pollTimer := some app.timersCreated
        timersCreated := app.timersCreated + 1
        pollTasks := app.pollTasks + 1
        cancelled := app.cancelled } := by
  rw [resume_of_none app h]; rfl

theorem emplace_of_find_none (m : DriveMap) (k : eid_t) (v : Drive)
    (h : DriveMap.find m k = none) : DriveMap.emplace m k v = (m ++ [(k, v)], true) := by
  unfold DriveMap.emplace
  rw [h]; rfl

theorem emplace_of_find_isSome (m : DriveMap) (k : eid_t) (v : Drive)
    (h : (DriveMap.find m k).isSome = true) : DriveMap.emplace m k v = (m, false) := by
  unfold DriveMap.emplace
  rw [if_pos h]

theorem emplace_mem_keys (m : DriveMap) (k : eid_t) (v : Drive) :
    k ∈ DriveMap.keys (DriveMap.emplace m k v).1 := by
  by_cases h : (DriveMap.find m k).isSome = true
  · rw [emplace_of_find_isSome m k v h]
    exact (find_isSome_iff_mem_keys m k).mp h
  · have h2 : DriveMap.find m k = none := by
      cases hf : DriveMap.find m k with
      | none => rfl
      | some d => rw [hf] at h; simp at h
    rw [emplace_of_find_none m k v h2]
    simp [DriveMap.keys]

/-- The scheduler during `createDrive`: `resumeHealthStatusPolling` is called
exactly when the registry holds one entry after the attempt, whatever the
attempt's outcome, and it changes the scheduler only when the handle is null. -/
theorem createDrive_sched (app : Application) (eid : eid_t) (loc : Option String)
    (thr : Bool) :
    (createDrive app eid loc thr).2.sched =
      if (createDrive app eid loc thr).2.drives.length = 1 ∧ app.pollTimer = none then
        { pollTimer := some app.timersCreated
          timersCreated := app.timersCreated + 1
          pollTasks := app.pollTasks + 1
          cancelled := app.cancelled }
      else app.sched := by
  have hs := getDriveName_sched_eq app loc
  have hp : (app.getDriveName loc).2.pollTimer = app.pollTimer := congrArg Scheduler.pollTimer hs
  have ht : (app.getDriveName loc).2.timersCreated = app.timersCreated :=
    congrArg Scheduler.timersCreated hs
  have hk : (app.getDriveName loc).2.pollTasks = app.pollTasks :=
    congrArg Scheduler.pollTasks hs
  have hc : (app.getDriveName loc).2.cancelled = app.cancelled :=
    congrArg Scheduler.cancelled hs
  cases thr
  · rw [createDrive_ok]
    dsimp only
    split
    · rename_i h1
      rw [resume_drives]
      cases hpt : app.pollTimer with
      | none =>
        rw [resume_sched_of_none _ (by rw [← hpt, ← hp]; rfl)]
        simp [logMsg_fields, h1, ht, hk, hc]
      | some t =>
        rw [resume_sched_of_some _ t (by rw [← hpt, ← hp]; rfl)]
        simp [logMsg_sched, ← hs]
        rfl
    · rename_i h1
      rw [if_neg (fun h => h1 h.1)]
      rw [← hs]; rfl
  · rw [createDrive_throws]
    dsimp only
    split
    · rename_i h1
      rw [resume_drives]
      cases hpt : app.pollTimer with
      | none =>
        rw [resume_sched_of_none _ (by rw [← hpt, ← hp]; rfl)]
        simp [logMsg_fields, h1, ht, hk, hc]
      | some t =>
        rw [resume_sched_of_some _ t (by rw [← hpt, ← hp]; rfl)]
        simp [logMsg_sched, ← hs]
    · rename_i h1
      rw [if_neg (fun h => h1 h.1)]
      rw [← hs]; rfl

theorem deviceRemoved_drives (app : Application) (eid : eid_t) :
    (deviceRemoved app eid).drives = app.drives.filter (fun p => p.1 != eid) := by
  unfold deviceRemoved DriveMap.erase
  dsimp only
  split <;> split <;> simp [pause_drives, logMsg_fields]

theorem pause_sched (app : Application) :
    app.pauseHealthStatusPolling.sched =
      (match app.pollTimer with
        | some t =>
          { pollTimer := none
            timersCreated := app.timersCreated
            pollTasks := app.pollTasks
            cancelled := app.cancelled ++ [t] }
        | none => app.sched) := by
  cases h : app.pollTimer with
  | none => rw [pause_of_none app h]; rfl
  | some t => rw [pause_of_some app t h]; rfl

theorem deviceRemoved_sched (app : Application) (eid : eid_t) :
    (deviceRemoved app eid).sched =
      if (deviceRemoved app eid).drives = [] then
        (match app.pollTimer with
          | some t =>
            { pollTimer := none
              timersCreated := app.timersCreated
              pollTasks := app.pollTasks
              cancelled := app.cancelled ++ [t] }
          | none => app.sched)
      else app.sched := by
  rw [deviceRemoved_drives]
  unfold deviceRemoved DriveMap.erase
  dsimp only
  split <;> split <;> rename_i h1 h2
  all_goals simp only [logMsg_fields, List.isEmpty_iff] at h2
  all_goals simp only [h2, if_true, if_false]
  all_goals first
    | rfl
    | (rw [pause_sched]; rfl)

theorem logMsg_calls (app : Application) (l : Level) (m : String) (e : Option eid_t) :
    (app.logMsg l m e).createDriveCalls =
      app.createDriveCalls + (if isCreateDriveEntry ⟨l, m, e⟩ then 1 else 0) := by
  unfold Application.createDriveCalls Application.logMsg
  simp only [List.countP_append, List.countP_cons, List.countP_nil, Nat.zero_add]

theorem resume_calls (app : Application) :
    app.resumeHealthStatusPolling.createDriveCalls = app.createDriveCalls := by
  unfold Application.resumeHealthStatusPolling
  cases app.pollTimer <;> (dsimp only; rw [logMsg_calls]; rfl)

theorem getDriveName_calls (app : Application) (loc : Option String) :
    (app.getDriveName loc).2.createDriveCalls = app.createDriveCalls := by
  cases loc <;> rfl

/-- Every call of `createDrive` writes exactly one of its two journal entries. -/
theorem createDrive_calls (app : Application) (eid : eid_t) (loc : Option String)
    (thr : Bool) :
    (createDrive app eid loc thr).2.createDriveCalls = app.createDriveCalls + 1 := by
  have hg := getDriveName_calls app loc
  cases thr
  · rw [createDrive_ok]
    dsimp only
    split
    · rw [resume_calls, logMsg_calls]
      show (app.getDriveName loc).2.createDriveCalls + 1 = _
      rw [hg]
    · rw [logMsg_calls]
      show (app.getDriveName loc).2.createDriveCalls + 1 = _
      rw [hg]
  · rw [createDrive_throws]
    dsimp only
    split
    · rw [resume_calls, logMsg_calls, hg]; rfl
    · rw [logMsg_calls, hg]; rfl

/-- The counter `attempts` of the retry loop is the number of calls of
`createDrive` that the journal records. -/
theorem retryLoop_calls (env : Nat → AttemptEnv) (eid : eid_t) (rc pass : Nat)
    (app : Application) :
    (retryLoop env eid rc pass app).app.createDriveCalls + pass =
      app.createDriveCalls + (retryLoop env eid rc pass app).attempts := by
  induction rc generalizing pass app with
  | zero => rfl
  | succ rc ih =>
    rw [retryLoop_succ]
    split
    · split
      · show (createDrive app eid (env pass).location true).2.createDriveCalls + pass = _
        rw [createDrive_calls]
        show _ = app.createDriveCalls + (pass + 1)
        omega
      · have h := ih (pass + 1) (createDrive app eid (env pass).location true).2
        rw [createDrive_calls] at h
        omega
    · show (createDrive app eid (env pass).location false).2.createDriveCalls + pass = _
      rw [createDrive_calls]
      show _ = app.createDriveCalls + (pass + 1)
      omega

theorem deviceAdded_calls (app : Application) (eid : eid_t) (env : Nat → AttemptEnv) :
    (deviceAdded app eid env).app.createDriveCalls =
      app.createDriveCalls + (deviceAdded app eid env).attempts := by
  have h := retryLoop_calls env eid 3 0 app
  exact h

theorem deviceAdded_first (app : Application) (eid : eid_t) (env : Nat → AttemptEnv)
    (h0 : (env 0).sensorThrows = false) :
    deviceAdded app eid env =
      ⟨(createDrive app eid (env 0).location false).2, true, 1⟩ := by
  simp [deviceAdded, retryLoop_succ, h0]

theorem deviceAdded_second (app : Application) (eid : eid_t) (env : Nat → AttemptEnv)
    (h0 : (env 0).sensorThrows = true) (w0 : (env 0).secondWaitFails = false)
    (h1 : (env 1).sensorThrows = false) :
    deviceAdded app eid env =
      ⟨(createDrive (createDrive app eid (env 0).location true).2 eid
          (env 1).location false).2, true, 2⟩ := by
  simp [deviceAdded, retryLoop_succ, h0, w0, h1]

theorem deviceAdded_third (app : Application) (eid : eid_t) (env : Nat → AttemptEnv)
    (h0 : (env 0).sensorThrows = true) (w0 : (env 0).secondWaitFails = false)
    (h1 : (env 1).sensorThrows = true) (w1 : (env 1).secondWaitFails = false)
    (h2 : (env 2).sensorThrows = false) :
    deviceAdded app eid env =
      ⟨(createDrive (createDrive (createDrive app eid (env 0).location true).2 eid
          (env 1).location true).2 eid (env 2).location false).2, true, 3⟩ := by
  simp [deviceAdded, retryLoop_succ, h0, w0, h1, w1, h2]

theorem deviceAdded_exhausted (app : Application) (eid : eid_t) (env : Nat → AttemptEnv)
    (h0 : (env 0).sensorThrows = true) (w0 : (env 0).secondWaitFails = false)
    (h1 : (env 1).sensorThrows = true) (w1 : (env 1).secondWaitFails = false)
    (h2 : (env 2).sensorThrows = true) :
    deviceAdded app eid env =
      ⟨(createDrive (createDrive (createDrive app eid (env 0).location true).2 eid
          (env 1).location true).2 eid (env 2).location true).2, false, 3⟩ := by
  simp [deviceAdded, retryLoop_succ, retryLoop, createDrive_fst, h0, w0, h1, w1, h2]

/-! ## The claims on the lifecycle coordinator and the scheduler -/

/-- C1: in the retry loop of a deviceAdded event, when the waits after failed
attempts complete normally (the result of the wait before an attempt is never
read), createDrive is called exactly min(3, k) times, k the position of the
first attempt whose construction does not throw, and exactly 3 times when every
attempt fails. Two failures followed by a success give 3 calls and the endpoint
is a key of the registry; with only failures there are 3 calls, the flag
driveCreated stays false and the registry is what it was, so an endpoint that
was not registered is not registered at the end. An attempt returns true exactly
when the construction does not throw (lemma createDrive_fst); the count is the
number of journal entries that createDrive wrote. -/
theorem deviceAdded_attempts (app : Application) (eid : eid_t) (env : Nat → AttemptEnv)
    (hwait : ∀ i, (env i).secondWaitFails = false) :
    (∀ k, (∀ i, i < k → (env i).sensorThrows = true) → (env k).sensorThrows = false →
        (deviceAdded app eid env).attempts = min 3 (k + 1)) ∧
    ((∀ i, (env i).sensorThrows = true) → (deviceAdded app eid env).attempts = 3) ∧
    ((env 0).sensorThrows = true → (env 1).sensorThrows = true →
      (env 2).sensorThrows = false →
        (deviceAdded app eid env).attempts = 3 ∧
        (deviceAdded app eid env).driveCreated = true ∧
        eid ∈ DriveMap.keys (deviceAdded app eid env).app.drives) ∧
    ((∀ i, (env i).sensorThrows = true) →
        (deviceAdded app eid env).driveCreated = false ∧
        (deviceAdded app eid env).app.drives = app.drives ∧
        (eid ∉ DriveMap.keys app.drives →
          eid ∉ DriveMap.keys (deviceAdded app eid env).app.drives)) ∧
    (deviceAdded app eid env).app.createDriveCalls =
      app.createDriveCalls + (deviceAdded app eid env).attempts := by
  refine ⟨?_, ?_, ?_, ?_, deviceAdded_calls app eid env⟩
  · intro k hlt hk
    match k, hlt, hk with
    | 0, _, hk => rw [deviceAdded_first app eid env hk]; rfl
    | 1, hlt, hk =>
      rw [deviceAdded_second app eid env (hlt 0 (by omega)) (hwait 0) hk]; rfl
    | 2, hlt, hk =>
      rw [deviceAdded_third app eid env (hlt 0 (by omega)) (hwait 0) (hlt 1 (by omega))
        (hwait 1) hk]; rfl
    | k + 3, hlt, _ =>
      rw [deviceAdded_exhausted app eid env (hlt 0 (by omega)) (hwait 0)
        (hlt 1 (by omega)) (hwait 1) (hlt 2 (by omega))]
      show 3 = min 3 (k + 3 + 1)
      omega
  · intro hall
    rw [deviceAdded_exhausted app eid env (hall 0) (hwait 0) (hall 1) (hwait 1) (hall 2)]
  · intro h0 h1 h2
    rw [deviceAdded_third app eid env h0 (hwait 0) h1 (hwait 1) h2]
    refine ⟨rfl, rfl, ?_⟩
    show eid ∈ DriveMap.keys (createDrive _ eid (env 2).location false).2.drives
    rw [createDrive_ok_drives]
    exact emplace_mem_keys _ _ _
  · intro hall
    rw [deviceAdded_exhausted app eid env (hall 0) (hwait 0) (hall 1) (hwait 1) (hall 2)]
    have hd : (createDrive (createDrive (createDrive app eid (env 0).location true).2 eid
        (env 1).location true).2 eid (env 2).location true).2.drives = app.drives := by
      rw [createDrive_throws_drives, createDrive_throws_drives, createDrive_throws_drives]
    refine ⟨rfl, hd, ?_⟩
    intro hne
    show eid ∉ DriveMap.keys (createDrive _ eid (env 2).location true).2.drives
    rw [hd]; exact hne

/-- Witness of C1: construction throws in the first two passes only. -/
theorem deviceAdded_attempts_witness :
    (deviceAdded Application.new 7
        (fun i => ⟨false, none, decide (i < 2), false⟩)).attempts = min 3 (2 + 1) ∧
    (deviceAdded Application.new 7
        (fun i => ⟨false, none, decide (i < 2), false⟩)).driveCreated = true :=
  ⟨(deviceAdded_attempts Application.new 7 (fun i => ⟨false, none, decide (i < 2), false⟩)
      (fun _ => rfl)).1 2 (fun i hi => by simp [hi]) (by decide),
   ((deviceAdded_attempts Application.new 7 (fun i => ⟨false, none, decide (i < 2), false⟩)
      (fun _ => rfl)).2.2.1 (by decide) (by decide) (by decide)).2.1⟩

/-- C2 (as amended): createDrive never replaces an entry. When the endpoint is
already a key, the registry is unchanged, the endpoint still maps to the
original Drive, and the return value only tells whether the construction of
the Drive threw: it is true when it did not, so the duplicate is not reported.
When the endpoint is absent and the construction does not throw, createDrive
returns true and the registry afterwards is the old one plus the endpoint. -/
theorem createDrive_registry (app : Application) (eid : eid_t) (loc : Option String)
    (thr : Bool) :
    ((DriveMap.find app.drives eid).isSome = true →
      (createDrive app eid loc thr).2.drives = app.drives ∧
      DriveMap.find (createDrive app eid loc thr).2.drives eid = DriveMap.find app.drives eid ∧
      (createDrive app eid loc thr).1 = !thr) ∧
    (DriveMap.find app.drives eid = none → thr = false →
      (createDrive app eid loc thr).1 = true ∧
      (createDrive app eid loc thr).2.drives =
        app.drives ++ [(eid, Drive.built (app.getDriveName loc).1 eid)] ∧
      (createDrive app eid loc thr).2.drives.length = app.drives.length + 1 ∧
      ∀ k, DriveMap.find (createDrive app eid loc thr).2.drives k =
        if k = eid then some (Drive.built (app.getDriveName loc).1 eid)
        else DriveMap.find app.drives k) := by
  constructor
  · intro hdup
    have hd : (createDrive app eid loc thr).2.drives = app.drives := by
      cases thr
      · rw [createDrive_ok_drives, emplace_of_find_isSome _ _ _ hdup]
      · exact createDrive_throws_drives app eid loc
    exact ⟨hd, by rw [hd], createDrive_fst app eid loc thr⟩
  · intro habs hthr
    subst hthr
    have hd : (createDrive app eid loc false).2.drives =
        app.drives ++ [(eid, Drive.built (app.getDriveName loc).1 eid)] := by
      rw [createDrive_ok_drives, emplace_of_find_none _ _ _ habs]
    refine ⟨createDrive_fst app eid loc false, hd, by rw [hd]; simp, ?_⟩
    intro k
    rw [hd, find_append_single]
    by_cases hk : k = eid
    · subst hk; simp [habs]
    · simp only [hk, if_false]
      cases DriveMap.find app.drives k <;> rfl

/-- Witness of C2 as amended: one registered endpoint; a second createDrive for
it, and a createDrive for a new endpoint. -/
theorem createDrive_registry_witness :
    ((createDrive registeredFive 5 none false).2.drives = registeredFive.drives ∧
      DriveMap.find (createDrive registeredFive 5 none false).2.drives 5 =
        DriveMap.find registeredFive.drives 5 ∧
      (createDrive registeredFive 5 none false).1 = !false) ∧
    (createDrive registeredFive 6 none false).2.drives.length =
      registeredFive.drives.length + 1 :=
  ⟨(createDrive_registry registeredFive 5 none false).1 (by decide),
   ((createDrive_registry registeredFive 6 none false).2 (by decide) rfl).2.2.1⟩

/-- Counterexample to C2 as stated: endpoint 5 is a key of the registry (drive
NVMeDrive1); a second createDrive for it builds a Drive named NVMeDrive2
without throwing, and returns true, the registry being unchanged. -/
theorem createDrive_duplicate_returns_true :
    (DriveMap.find registeredFive.drives 5).isSome = true ∧
    (registeredFive.getDriveName none).1 = "NVMeDrive2" ∧
    (createDrive registeredFive 5 none false).1 = true ∧
    (createDrive registeredFive 5 none false).2.drives = registeredFive.drives := by
  decide

/-- C3 (evaluation at the failing input): one drive is registered and polling
has been paused; createDrive for endpoint 7 fails because the construction
throws, the registry keeps its single entry, and the scheduler is started all
the same: a timer is made and a loop task spawned. -/
theorem createDrive_failure_starts_scheduler :
    pausedFive.drives.length = 1 ∧
    pausedFive.pollTimer = none ∧
    pausedFive.pollTasks = 1 ∧
    (createDrive pausedFive 7 none true).1 = false ∧
    (createDrive pausedFive 7 none true).2.drives = pausedFive.drives ∧
    (createDrive pausedFive 7 none true).2.pollTimer = some 1 ∧
    (createDrive pausedFive 7 none true).2.pollTasks = 2 := by
  decide

theorem erase_of_find_none (m : DriveMap) (e : eid_t)
    (h : DriveMap.find m e = none) : DriveMap.erase m e = (m, 0) := by
  unfold DriveMap.erase
  dsimp only
  rw [filter_eq_self_of_find_none m e h]
  simp

theorem pause_log_mem (app : Application) (x : LogEntry) (h : x ∈ app.log) :
    x ∈ app.pauseHealthStatusPolling.log := by
  unfold Application.pauseHealthStatusPolling
  cases app.pollTimer <;> simp [Application.logMsg, h]

theorem deviceRemoved_of_absent (app : Application) (eid : eid_t)
    (h : DriveMap.find app.drives eid = none) :
    deviceRemoved app eid =
      if app.drives.isEmpty then
        (app.logMsg Level.ERR "No drive found mapped to eid"
          (some eid)).pauseHealthStatusPolling
      else app.logMsg Level.ERR "No drive found mapped to eid" (some eid) := by
  unfold deviceRemoved
  rw [erase_of_find_none app.drives eid h]
  rfl

/-- C4: a deviceRemoved event for endpoint e leaves the registry as it was with
key e erased: every other key maps to what it mapped to, e maps to nothing, and
a registry without e is unchanged (the journal then gets the error entry). The
handler returns a state for every input. When the registry is empty afterwards
the timer handle is null; when it is not, the scheduler is unchanged. -/
theorem deviceRemoved_registry_and_scheduler (app : Application) (eid : eid_t) :
    (∀ k, DriveMap.find (deviceRemoved app eid).drives k =
        if k = eid then none else DriveMap.find app.drives k) ∧
    (deviceRemoved app eid).drives = (DriveMap.erase app.drives eid).1 ∧
    (DriveMap.find app.drives eid = none →
      (deviceRemoved app eid).drives = app.drives ∧
      (⟨Level.ERR, "No drive found mapped to eid", some eid⟩ : LogEntry) ∈
        (deviceRemoved app eid).log) ∧
    (∀ env, call app ⟨EventType.deviceRemoved, eid⟩ env = deviceRemoved app eid) ∧
    ((deviceRemoved app eid).drives = [] → (deviceRemoved app eid).pollTimer = none) ∧
    ((deviceRemoved app eid).drives ≠ [] → (deviceRemoved app eid).sched = app.sched) := by
  refine ⟨?_, ?_, ?_, ?_, ?_, ?_⟩
  · intro k
    rw [deviceRemoved_drives]
    exact find_filter_ne app.drives k eid
  · rw [deviceRemoved_drives]; rfl
  · intro habs
    refine ⟨by rw [deviceRemoved_drives]; exact filter_eq_self_of_find_none _ _ habs, ?_⟩
    rw [deviceRemoved_of_absent app eid habs]
    split
    · apply pause_log_mem
      simp [Application.logMsg]
    · simp [Application.logMsg]
  · intro env; rfl
  · intro hempty
    have hs := deviceRemoved_sched app eid
    rw [if_pos hempty] at hs
    have hp : (deviceRemoved app eid).pollTimer = (deviceRemoved app eid).sched.pollTimer := rfl
    rw [hp, hs]
    cases h : app.pollTimer with
    | none => exact h
    | some t => rfl
  · intro hne
    have hs := deviceRemoved_sched app eid
    rw [if_neg hne] at hs
    exact hs

/-- Witness of C4: removing the only endpoint empties the registry and stops
the scheduler; removing an unknown endpoint changes neither. -/
theorem deviceRemoved_registry_and_scheduler_witness :
    (deviceRemoved registeredFive 5).pollTimer = none ∧
    (deviceRemoved registeredFive 9).sched = registeredFive.sched ∧
    (deviceRemoved registeredFive 9).drives = registeredFive.drives :=
  ⟨(deviceRemoved_registry_and_scheduler registeredFive 5).2.2.2.2.1 (by decide),
   (deviceRemoved_registry_and_scheduler registeredFive 9).2.2.2.2.2 (by decide),
   ((deviceRemoved_registry_and_scheduler registeredFive 9).2.2.1 (by decide)).1⟩

/-- C5: resumeHealthStatusPolling with a timer handle present only writes its
journal entry: no timer is made and no task spawned. Two calls in a row from
the stopped state make exactly one timer and spawn exactly one loop task, and
the second call leaves the scheduler as the first one left it.
pauseHealthStatusPolling in the stopped state only writes its journal entry;
with a handle present it cancels that timer and leaves the handle null. -/
theorem scheduler_start_stop_idempotent (app : Application) :
    (∀ t, app.pollTimer = some t →
      app.resumeHealthStatusPolling =
        app.logMsg Level.INFO "health status polling resumed" none ∧
      app.resumeHealthStatusPolling.sched = app.sched) ∧
    (app.pollTimer = none →
      app.resumeHealthStatusPolling.resumeHealthStatusPolling.sched =
        app.resumeHealthStatusPolling.sched ∧
      app.resumeHealthStatusPolling.resumeHealthStatusPolling.pollTimer =
        some app.timersCreated ∧
      app.resumeHealthStatusPolling.resumeHealthStatusPolling.timersCreated =
        app.timersCreated + 1 ∧
      app.resumeHealthStatusPolling.resumeHealthStatusPolling.pollTasks =
        app.pollTasks + 1) ∧
    (app.pollTimer = none →
      app.pauseHealthStatusPolling =
        app.logMsg Level.INFO "health status polling paused" none ∧
      app.pauseHealthStatusPolling.sched = app.sched) ∧
    (∀ t, app.pollTimer = some t →
      app.pauseHealthStatusPolling.pollTimer = none ∧
      app.pauseHealthStatusPolling.cancelled = app.cancelled ++ [t] ∧
      app.pauseHealthStatusPolling.timersCreated = app.timersCreated ∧
      app.pauseHealthStatusPolling.pollTasks = app.pollTasks ∧
      app.pauseHealthStatusPolling.drives = app.drives) := by
  refine ⟨?_, ?_, ?_, ?_⟩
  · intro t ht
    exact ⟨resume_of_some app t ht, resume_sched_of_some app t ht⟩
  · intro hn
    have h1 : app.resumeHealthStatusPolling.pollTimer = some app.timersCreated := by
      rw [resume_of_none app hn]; rfl
    have h2 := resume_sched_of_some _ _ h1
    have h3 := resume_sched_of_none app hn
    refine ⟨h2, ?_, ?_, ?_⟩
    · exact congrArg Scheduler.pollTimer (h2.trans h3)
    · exact congrArg Scheduler.timersCreated (h2.trans h3)
    · exact congrArg Scheduler.pollTasks (h2.trans h3)
  · intro hn
    exact ⟨pause_of_none app hn, by rw [pause_of_none app hn]; rfl⟩
  · intro t ht
    rw [pause_of_some app t ht]
    exact ⟨rfl, rfl, rfl, rfl, rfl⟩

/-- Witness of C5: the fresh application is stopped, the state with endpoint 5
registered is running. -/
theorem scheduler_start_stop_idempotent_witness :
    Application.new.resumeHealthStatusPolling.resumeHealthStatusPolling.pollTasks = 0 + 1 ∧
    registeredFive.resumeHealthStatusPolling.sched = registeredFive.sched ∧
    Application.new.pauseHealthStatusPolling.sched = Application.new.sched ∧
    registeredFive.pauseHealthStatusPolling.pollTimer = none :=
  ⟨((scheduler_start_stop_idempotent Application.new).2.1 rfl).2.2.2,
   ((scheduler_start_stop_idempotent registeredFive).1 0 (by decide)).2,
   ((scheduler_start_stop_idempotent Application.new).2.2.1 rfl).2,
   ((scheduler_start_stop_idempotent registeredFive).2.2.2 0 (by decide)).1⟩

/-- C6: from the fresh application (empty registry, null timer handle), with
every construction succeeding: the deviceAdded events for 1, 2, 3 bring the
registry to sizes 1, 2, 3, and the timer handle is set from the first one on
(one timer, one loop task); deviceRemoved for 2 leaves size 2 and the same
timer; deviceRemoved for 1 leaves size 1 and the same timer; deviceRemoved for
3 leaves size 0 and a null handle, the timer cancelled. -/
theorem end_to_end_scenario (envs : Nat → Nat → AttemptEnv)
    (hok : ∀ i j, (envs i j).sensorThrows = false) :
    Application.new.drives = [] ∧ Application.new.pollTimer = none ∧
    (runEvents Application.new [⟨EventType.deviceAdded, 1⟩] envs 0).drives.length = 1 ∧
    (runEvents Application.new [⟨EventType.deviceAdded, 1⟩] envs 0).sched =
      ⟨some 0, 1, 1, []⟩ ∧
    (runEvents Application.new
      [⟨EventType.deviceAdded, 1⟩, ⟨EventType.deviceAdded, 2⟩] envs 0).drives.length = 2 ∧
    (runEvents Application.new
      [⟨EventType.deviceAdded, 1⟩, ⟨EventType.deviceAdded, 2⟩] envs 0).sched =
      ⟨some 0, 1, 1, []⟩ ∧
    (runEvents Application.new
      [⟨EventType.deviceAdded, 1⟩, ⟨EventType.deviceAdded, 2⟩,
       ⟨EventType.deviceAdded, 3⟩] envs 0).drives.length = 3 ∧
    (runEvents Application.new
      [⟨EventType.deviceAdded, 1⟩, ⟨EventType.deviceAdded, 2⟩,
       ⟨EventType.deviceAdded, 3⟩] envs 0).sched = ⟨some 0, 1, 1, []⟩ ∧
    DriveMap.keys (runEvents Application.new
      [⟨EventType.deviceAdded, 1⟩, ⟨EventType.deviceAdded, 2⟩,
       ⟨EventType.deviceAdded, 3⟩, ⟨EventType.deviceRemoved, 2⟩] envs 0).drives = [1, 3] ∧
    (runEvents Application.new
      [⟨EventType.deviceAdded, 1⟩, ⟨EventType.deviceAdded, 2⟩,
       ⟨EventType.deviceAdded, 3⟩, ⟨EventType.deviceRemoved, 2⟩] envs 0).sched =
      ⟨some 0, 1, 1, []⟩ ∧
    DriveMap.keys (runEvents Application.new
      [⟨EventType.deviceAdded, 1⟩, ⟨EventType.deviceAdded, 2⟩,
       ⟨EventType.deviceAdded, 3⟩, ⟨EventType.deviceRemoved, 2⟩,
       ⟨EventType.deviceRemoved, 1⟩] envs 0).drives = [3] ∧
    (runEvents Application.new
      [⟨EventType.deviceAdded, 1⟩, ⟨EventType.deviceAdded, 2⟩,
       ⟨EventType.deviceAdded, 3⟩, ⟨EventType.deviceRemoved, 2⟩,
       ⟨EventType.deviceRemoved, 1⟩] envs 0).sched = ⟨some 0, 1, 1, []⟩ ∧
    (runEvents Application.new
      [⟨EventType.deviceAdded, 1⟩, ⟨EventType.deviceAdded, 2⟩,
       ⟨EventType.deviceAdded, 3⟩, ⟨EventType.deviceRemoved, 2⟩,
       ⟨EventType.deviceRemoved, 1⟩, ⟨EventType.deviceRemoved, 3⟩] envs 0).drives = [] ∧
    (runEvents Application.new
      [⟨EventType.deviceAdded, 1⟩, ⟨EventType.deviceAdded, 2⟩,
       ⟨EventType.deviceAdded, 3⟩, ⟨EventType.deviceRemoved, 2⟩,
       ⟨EventType.deviceRemoved, 1⟩, ⟨EventType.deviceRemoved, 3⟩] envs 0).sched =
      ⟨none, 1, 1, [0]⟩ := by
  have h0 := hok 0 0
  have h1 := hok 1 0
  have h2 := hok 2 0
  simp only [runEvents, call, deviceAdded_first _ _ _ h0, deviceAdded_first _ _ _ h1,
    deviceAdded_first _ _ _ h2]
  cases (envs 0 0).location <;> cases (envs 1 0).location <;> cases (envs 2 0).location <;>
    simp [createDrive_ok, Application.getDriveName, DriveMap.emplace, DriveMap.find,
      List.lookup, Application.logMsg, Application.resumeHealthStatusPolling,
      Application.new, deviceRemoved, DriveMap.erase, Application.sched,
      Application.pauseHealthStatusPolling, DriveMap.keys]

/-- Witness of C6: the scenario with the location lookup answering and every
wait completing normally. -/
theorem end_to_end_scenario_witness :
    (runEvents Application.new
      [⟨EventType.deviceAdded, 1⟩, ⟨EventType.deviceAdded, 2⟩,
       ⟨EventType.deviceAdded, 3⟩, ⟨EventType.deviceRemoved, 2⟩,
       ⟨EventType.deviceRemoved, 1⟩, ⟨EventType.deviceRemoved, 3⟩]
      (fun _ => allGoodEnv) 0).drives = [] ∧
    (runEvents Application.new
      [⟨EventType.deviceAdded, 1⟩, ⟨EventType.deviceAdded, 2⟩,
       ⟨EventType.deviceAdded, 3⟩, ⟨EventType.deviceRemoved, 2⟩,
       ⟨EventType.deviceRemoved, 1⟩, ⟨EventType.deviceRemoved, 3⟩]
      (fun _ => allGoodEnv) 0).sched = ⟨none, 1, 1, [0]⟩ :=
  match end_to_end_scenario (fun _ => allGoodEnv) (fun _ _ => rfl) with
  | ⟨_, _, _, _, _, _, _, _, _, _, _, _, h13, h14⟩ => ⟨h13, h14⟩

/-! ## Lemmas: checksum and request buffer -/

theorem crc32cBit_lt (c : Nat) (h : c < 2 ^ 32) : crc32cBit c < 2 ^ 32 := by
  unfold crc32cBit
  split
  · exact Nat.xor_lt_two_pow (by omega) (by norm_num)
  · omega

theorem crc32cBit_iterate_lt (n c : Nat) (h : c < 2 ^ 32) : crc32cBit^[n] c < 2 ^ 32 := by
  induction n generalizing c with
  | zero => exact h
  | succ n ih =>
    rw [Function.iterate_succ_apply]
    exact ih _ (crc32cBit_lt c h)

theorem crc32cByte_lt (c b : Nat) (h : c < 2 ^ 32) : crc32cByte c b < 2 ^ 32 := by
  unfold crc32cByte
  apply crc32cBit_iterate_lt
  exact Nat.xor_lt_two_pow h (by omega)

theorem foldl_crc32cByte_lt (data : List Nat) (c : Nat) (h : c < 2 ^ 32) :
    data.foldl crc32cByte c < 2 ^ 32 := by
  induction data generalizing c with
  | nil => exact h
  | cons b bs ih => exact ih _ (crc32cByte_lt c b h)

theorem crc32c_lt (data : List Nat) : crc32c data < 2 ^ 32 := by
  unfold crc32c
  exact Nat.xor_lt_two_pow (foldl_crc32cByte_lt data _ (by norm_num)) (by norm_num)

set_option maxRecDepth 100000 in
/-- The check value of CRC-32C: the checksum of the ASCII digits 1 to 9. -/
theorem crc32c_check : crc32c [49, 50, 51, 52, 53, 54, 55, 56, 57] = 0xE3069283 := by
  decide

theorem fromLE_le32 (x : Nat) (h : x < 2 ^ 32) : fromLE (le32 x) = x := by
  simp only [le32, fromLE]
  omega

theorem le32_lt (x : Nat) : ∀ b ∈ le32 x, b < 256 := by
  intro b hb
  simp only [le32, List.mem_cons, List.mem_singleton, List.not_mem_nil, or_false] at hb
  omega

/-- The message part of the request: zero bytes with the opcode at its place. -/
theorem buildRequest_eq (L : MiLayout) (hwf : L.wf) :
    Drive.buildRequest L =
      (List.replicate L.minSize 0).set L.opCodeOffset L.subsystemHealthStatusPoll ++
        le32 (crc32c
          ((List.replicate L.minSize 0).set L.opCodeOffset L.subsystemHealthStatusPoll)) := by
  obtain ⟨ho, hop, hd, hb, hdisj⟩ := hwf
  have hi : L.dword1Offset + L.clearStatusBit / 8 < L.minSize := by omega
  have hne : L.dword1Offset + L.clearStatusBit / 8 ≠ L.opCodeOffset := by omega
  have hlen : ((List.replicate L.minSize 0).set L.opCodeOffset
      L.subsystemHealthStatusPoll).length = L.minSize := by simp
  have h1 : ManagementInterfaceMessage.setMiOpCode L (List.replicate (L.minSize + crcSize) 0)
      L.subsystemHealthStatusPoll =
      (List.replicate L.minSize 0).set L.opCodeOffset L.subsystemHealthStatusPoll ++
        List.replicate crcSize 0 := by
    unfold ManagementInterfaceMessage.setMiOpCode
    rw [Nat.mod_eq_of_lt hop, List.replicate_add, List.set_append_left _ _ (by simpa using ho)]
  have hget : ((List.replicate L.minSize 0).set L.opCodeOffset L.subsystemHealthStatusPoll ++
        List.replicate crcSize 0).getD (L.dword1Offset + L.clearStatusBit / 8) 0 = 0 := by
    rw [List.getD_eq_getElem?_getD, List.getElem?_append_left (by rw [hlen]; exact hi),
      List.getElem?_set_ne (Ne.symm hne)]
    simp [hi]
  have h2 : ManagementInterfaceMessage.setClearStatus L
      ((List.replicate L.minSize 0).set L.opCodeOffset L.subsystemHealthStatusPoll ++
        List.replicate crcSize 0) false =
      (List.replicate L.minSize 0).set L.opCodeOffset L.subsystemHealthStatusPoll ++
        List.replicate crcSize 0 := by
    unfold ManagementInterfaceMessage.setClearStatus
    simp only [hget]
    simp only [Nat.zero_testBit, Bool.false_eq_true, if_false, Nat.sub_zero]
    apply List.ext_getElem?
    intro n
    by_cases hn : n = L.dword1Offset + L.clearStatusBit / 8
    · subst hn
      rw [List.getElem?_set_self (by simp; omega)]
      rw [List.getD_eq_getElem?_getD] at hget
      have hlt : L.dword1Offset + L.clearStatusBit / 8 <
          ((List.replicate L.minSize 0).set L.opCodeOffset L.subsystemHealthStatusPoll ++
            List.replicate crcSize 0).length := by simp; omega
      rw [List.getElem?_eq_getElem hlt] at hget ⊢
      simpa using hget.symm
    · rw [List.getElem?_set_ne (Ne.symm hn)]
  unfold Drive.buildRequest ManagementInterfaceMessage.new
  simp only [h1, h2]
  unfold ManagementInterfaceMessage.setCRC
  have hl : ((List.replicate L.minSize 0).set L.opCodeOffset L.subsystemHealthStatusPoll ++
        List.replicate crcSize 0).length - crcSize = L.minSize := by
    simp
  rw [hl, List.take_left' hlen]

/-! ## The claims on the health-poll request and the response -/

/-- C7: the request that pollSubsystemHealthStatus builds depends on nothing
but the layout constants, so it is the same bytes on every call, for every
drive and transport. It has minSize + 4 bytes, all below 256; the opcode byte
is subsystemHealthStatusPoll, the clearStatus bit is 0, every other byte before
the checksum is zero, the last 4 bytes are the little-endian CRC-32C of the
bytes before them, and the validation of the codec (length, then checksum
recomputed over the first N-4 bytes and compared with the last 4) accepts it. -/
theorem buildRequest_frame (L : MiLayout) (hwf : L.wf) :
    (Drive.buildRequest L).length = L.minSize + 4 ∧
    (∀ b ∈ Drive.buildRequest L, b < 256) ∧
    (Drive.buildRequest L)[L.opCodeOffset]? = some L.subsystemHealthStatusPoll ∧
    ((Drive.buildRequest L).getD (L.dword1Offset + L.clearStatusBit / 8) 0).testBit
      (L.clearStatusBit % 8) = false ∧
    (∀ i, i < L.minSize → i ≠ L.opCodeOffset → (Drive.buildRequest L)[i]? = some 0) ∧
    (Drive.buildRequest L).drop L.minSize =
      le32 (crc32c ((Drive.buildRequest L).take L.minSize)) ∧
    fromLE ((Drive.buildRequest L).drop ((Drive.buildRequest L).length - 4)) =
      crc32c ((Drive.buildRequest L).take ((Drive.buildRequest L).length - 4)) ∧
    ManagementInterfaceMessage.decodeResponse L (Drive.buildRequest L) =
      some (Drive.buildRequest L) ∧
    (∀ (d : Drive) (send : eid_t → List Nat → Nat → Option String × List Nat),
      (Drive.pollSubsystemHealthStatus L d send).request = Drive.buildRequest L) := by
  have heq := buildRequest_eq L hwf
  obtain ⟨ho, hop, hd, hb, hdisj⟩ := hwf
  have hi : L.dword1Offset + L.clearStatusBit / 8 < L.minSize := by omega
  have hne : L.dword1Offset + L.clearStatusBit / 8 ≠ L.opCodeOffset := by omega
  generalize hbody :
    (List.replicate L.minSize 0).set L.opCodeOffset L.subsystemHealthStatusPoll = body at heq
  have hlen : body.length = L.minSize := by rw [← hbody]; simp
  have hbodyget : ∀ i, i < L.minSize → i ≠ L.opCodeOffset → body[i]? = some 0 := by
    intro i hi' hne'
    rw [← hbody, List.getElem?_set_ne (Ne.symm hne')]
    simp [hi']
  have htake : (Drive.buildRequest L).take L.minSize = body := by
    rw [heq, List.take_left' hlen]
  have hdrop : (Drive.buildRequest L).drop L.minSize = le32 (crc32c body) := by
    rw [heq, List.drop_left' hlen]
  have hlenreq : (Drive.buildRequest L).length = L.minSize + 4 := by
    rw [heq, List.length_append, hlen]; rfl
  have hfrom : fromLE ((Drive.buildRequest L).drop ((Drive.buildRequest L).length - 4)) =
      crc32c ((Drive.buildRequest L).take ((Drive.buildRequest L).length - 4)) := by
    rw [hlenreq, Nat.add_sub_cancel, htake, hdrop]
    exact fromLE_le32 _ (crc32c_lt body)
  refine ⟨hlenreq, ?_, ?_, ?_, ?_, ?_, hfrom, ?_, ?_⟩
  · intro b hbm
    rw [heq, List.mem_append] at hbm
    rcases hbm with hbm | hbm
    · rw [← hbody] at hbm
      rcases List.mem_or_eq_of_mem_set hbm with h | h
      · rw [List.eq_of_mem_replicate h]; norm_num
      · rw [h]; exact hop
    · exact le32_lt _ b hbm
  · rw [heq, List.getElem?_append_left (by rw [hlen]; exact ho), ← hbody,
      List.getElem?_set_self (by simpa using ho)]
  · rw [heq, List.getD_eq_getElem?_getD, List.getElem?_append_left (by rw [hlen]; exact hi),
      hbodyget _ hi hne]
    simp
  · intro i hi' hne'
    rw [heq, List.getElem?_append_left (by rw [hlen]; exact hi'), hbodyget i hi' hne']
  · rw [htake, hdrop]
  · unfold ManagementInterfaceMessage.decodeResponse
    rw [if_neg (by rw [hlenreq]; simp [crcSize])]
    exact if_pos hfrom
  · intro d send
    unfold Drive.pollSubsystemHealthStatus
    dsimp only
    split <;> rfl

set_option maxRecDepth 100000 in
/-- Witness of C7: the request for the example layout. -/
theorem buildRequest_frame_witness :
    (Drive.buildRequest exampleLayout).length = 16 + 4 ∧
    ManagementInterfaceMessage.decodeResponse exampleLayout (Drive.buildRequest exampleLayout) =
      some (Drive.buildRequest exampleLayout) ∧
    Drive.buildRequest exampleLayout =
      [0, 0, 0, 0, 1, 0, 0, 0, 0, 0, 0, 0, 0, 0, 0, 0, 218, 78, 1, 115] :=
  ⟨(buildRequest_frame exampleLayout (by decide)).1,
   (buildRequest_frame exampleLayout (by decide)).2.2.2.2.2.2.2.1,
   by decide⟩

/-- C8 (as amended): when the transport returns a response without error,
pollSubsystemHealthStatus writes the hexadecimal dump of the request and of the
response to the journal at debug level and does nothing else: the response is
not validated, so its length and its checksum have no influence and no failure
is reported. A failure is reported only for an error code of the transport. -/
theorem poll_does_not_validate (L : MiLayout) (d : Drive)
    (send : eid_t → List Nat → Nat → Option String × List Nat) :
    ((send d.mctpEid (Drive.buildRequest L) hsPollTimeout).1 = none →
      (Drive.pollSubsystemHealthStatus L d send).log =
        [⟨Level.DEBUG, getHexString (Drive.buildRequest L), none⟩,
         ⟨Level.DEBUG,
          getHexString (send d.mctpEid (Drive.buildRequest L) hsPollTimeout).2, none⟩] ∧
      (Drive.pollSubsystemHealthStatus L d send).reportsFailure = false) ∧
    ((send d.mctpEid (Drive.buildRequest L) hsPollTimeout).1 ≠ none →
      (Drive.pollSubsystemHealthStatus L d send).reportsFailure = true) := by
  unfold Drive.pollSubsystemHealthStatus
  dsimp only
  generalize send d.mctpEid (Drive.buildRequest L) hsPollTimeout = r
  obtain ⟨ec, resp⟩ := r
  cases ec with
  | none => exact ⟨fun _ => ⟨rfl, rfl⟩, fun h => absurd rfl h⟩
  | some m => exact ⟨fun h => by simp at h, fun _ => rfl⟩

set_option maxRecDepth 100000 in
/-- Witness of C8 as amended: an empty response and no transport error. -/
theorem poll_does_not_validate_witness :
    (Drive.pollSubsystemHealthStatus exampleLayout (Drive.built "NVMe_bus0/addr5" 5)
      (fun _ _ _ => (none, []))).reportsFailure = false ∧
    (Drive.pollSubsystemHealthStatus exampleLayout (Drive.built "NVMe_bus0/addr5" 5)
      (fun _ _ _ => (some "timed out", []))).reportsFailure = true :=
  ⟨((poll_does_not_validate exampleLayout (Drive.built "NVMe_bus0/addr5" 5)
      (fun _ _ _ => (none, []))).1 rfl).2,
   (poll_does_not_validate exampleLayout (Drive.built "NVMe_bus0/addr5" 5)
      (fun _ _ _ => (some "timed out", []))).2 (by simp)⟩

set_option maxRecDepth 100000 in
/-- Counterexample to C8 as stated: the transport returns, without error, an
empty response (shorter than the minimum frame) or a frame with one bit flipped
before the checksum; the codec rejects both, and the poll reports no failure. -/
theorem poll_accepts_invalid_response :
    ([] : List Nat).length < exampleLayout.minSize + 4 ∧
    ManagementInterfaceMessage.decodeResponse exampleLayout [] = none ∧
    (Drive.pollSubsystemHealthStatus exampleLayout (Drive.built "NVMe_bus0/addr5" 5)
      (fun _ _ _ => (none, []))).reportsFailure = false ∧
    fromLE (flippedFrame.drop 16) ≠ crc32c (flippedFrame.take 16) ∧
    ManagementInterfaceMessage.decodeResponse exampleLayout flippedFrame = none ∧
    (Drive.pollSubsystemHealthStatus exampleLayout (Drive.built "NVMe_bus0/addr5" 5)
      (fun _ _ _ => (none, flippedFrame))).reportsFailure = false := by
  decide

/-! ## Lemmas: sanitization -/

theorem regexReplaceAux_allowed (inMatch : Bool) (s : List Char) :
    ∀ c ∈ regexReplaceAux inMatch s, isAllowed c = true := by
  induction s generalizing inMatch with
  | nil => intro c hc; simp [regexReplaceAux] at hc
  | cons x xs ih =>
    intro c hc
    unfold regexReplaceAux at hc
    split at hc
    · rename_i hx
      rcases List.mem_cons.mp hc with h | h
      · rw [h]; exact hx
      · exact ih false c h
    · split at hc
      · exact ih true c hc
      · rcases List.mem_cons.mp hc with h | h
        · rw [h]; decide
        · exact ih true c h

theorem regexReplaceAux_id (inMatch : Bool) (s : List Char)
    (h : ∀ c ∈ s, isAllowed c = true) : regexReplaceAux inMatch s = s := by
  induction s generalizing inMatch with
  | nil => rfl
  | cons x xs ih =>
    unfold regexReplaceAux
    rw [if_pos (h x (List.mem_cons_self x xs)),
      ih false (fun c hc => h c (List.mem_cons_of_mem x hc))]

/-- Inside a match, further characters outside the class are skipped. -/
theorem regexReplaceAux_skip (bad rest : List Char)
    (hbad : ∀ c ∈ bad, isAllowed c = false) :
    regexReplaceAux true (bad ++ rest) = regexReplaceAux true rest := by
  induction bad with
  | nil => rfl
  | cons x xs ih =>
    rw [List.cons_append, regexReplaceAux,
      if_neg (by rw [hbad x (List.mem_cons_self x xs)]; simp), if_pos rfl]
    exact ih (fun c hc => hbad c (List.mem_cons_of_mem x hc))

/-- At the end of a match the flag no longer matters. -/
theorem regexReplaceAux_flag (rest : List Char)
    (hrest : ∀ c, rest.head? = some c → isAllowed c = true) :
    regexReplaceAux true rest = regexReplaceAux false rest := by
  cases rest with
  | nil => rfl
  | cons x xs =>
    have hx : isAllowed x = true := hrest x rfl
    rw [regexReplaceAux, regexReplaceAux, if_pos hx, if_pos hx]

/-- A nonempty run of characters outside the class, met outside a match,
becomes one underscore. -/
theorem regexReplaceAux_run (bad rest : List Char) (hne : bad ≠ [])
    (hbad : ∀ c ∈ bad, isAllowed c = false)
    (hrest : ∀ c, rest.head? = some c → isAllowed c = true) :
    regexReplaceAux false (bad ++ rest) = '_' :: regexReplaceAux false rest := by
  cases bad with
  | nil => exact absurd rfl hne
  | cons x xs =>
    rw [List.cons_append, regexReplaceAux,
      if_neg (by rw [hbad x (List.mem_cons_self x xs)]; simp), if_neg (by simp),
      regexReplaceAux_skip xs rest (fun c hc => hbad c (List.mem_cons_of_mem x hc)),
      regexReplaceAux_flag rest hrest]

/-- A prefix that does not end inside a match is handled on its own. -/
theorem regexReplaceAux_append (inMatch : Bool) (a rest : List Char)
    (ha : ∀ c, a.getLast? = some c → isAllowed c = true) (hne : a ≠ []) :
    regexReplaceAux inMatch (a ++ rest) =
      regexReplaceAux inMatch a ++ regexReplaceAux false rest := by
  induction a generalizing inMatch with
  | nil => exact absurd rfl hne
  | cons x xs ih =>
    cases xs with
    | nil =>
      have hx : isAllowed x = true := ha x rfl
      simp [regexReplaceAux, hx]
    | cons y ys =>
      have ha2 : ∀ c, (y :: ys).getLast? = some c → isAllowed c = true := by
        intro c hc
        apply ha c
        rw [List.getLast?_cons_cons]; exact hc
      have ih2 := fun b => ih b ha2 (by simp)
      rw [List.cons_append, regexReplaceAux, regexReplaceAux]
      by_cases hx : isAllowed x = true
      · rw [if_pos hx, if_pos hx, ih2 false]; rfl
      · rw [if_neg hx, if_neg hx]
        cases inMatch
        · rw [if_neg (by simp), if_neg (by simp), ih2 true]; rfl
        · rw [if_pos rfl, if_pos rfl, ih2 true]

theorem regexReplaceAux_split (a bad b : List Char)
    (ha : ∀ c, a.getLast? = some c → isAllowed c = true)
    (hne : bad ≠ []) (hbad : ∀ c ∈ bad, isAllowed c = false)
    (hb : ∀ c, b.head? = some c → isAllowed c = true) :
    regexReplaceAux false (a ++ bad ++ b) =
      regexReplaceAux false a ++ '_' :: regexReplaceAux false b := by
  rw [List.append_assoc]
  by_cases hA : a = []
  · subst hA
    rw [List.nil_append, regexReplaceAux_run bad b hne hbad hb]; rfl
  · rw [regexReplaceAux_append false a (bad ++ b) ha hA,
      regexReplaceAux_run bad b hne hbad hb]

/-! ## The claim on the drive name -/

/-- C10: the name stored in a Drive is the sanitized name: it contains only
characters of [A-Za-z0-9_/]; a name made of such characters only is stored
unchanged; a maximal run of other characters (the text before it is empty or
ends with a character of the class, the text after it is empty or starts with
one) is replaced by a single underscore, the rest being sanitized on its own.
The location bus0/addr5 gives the name NVMe_bus0/addr5, stored unchanged, and
bus0:addr5 sanitizes to bus0_addr5. Without a location the name is NVMeDrive
followed by the counter in decimal; the counter is 1 in a fresh application and
is one more after each such name (as long as it fits the 64 bits of size_t). -/
theorem drive_name_sanitized :
    (∀ (driveName : String) (eid : eid_t) (d : Drive),
      Drive.new driveName eid false = some d →
        d.name = sanitize driveName ∧ ∀ c ∈ d.name.data, isAllowed c = true) ∧
    (∀ driveName : String, (∀ c ∈ driveName.data, isAllowed c = true) →
      sanitize driveName = driveName) ∧
    (∀ a bad b : String,
      (∀ c, a.data.getLast? = some c → isAllowed c = true) →
      bad.data ≠ [] → (∀ c ∈ bad.data, isAllowed c = false) →
      (∀ c, b.data.head? = some c → isAllowed c = true) →
        sanitize (a ++ bad ++ b) = sanitize a ++ "_" ++ sanitize b) ∧
    (∀ app : Application,
      (app.getDriveName (some "bus0/addr5")).1 = "NVMe_bus0/addr5" ∧
      (Drive.built (app.getDriveName (some "bus0/addr5")).1 5).name = "NVMe_bus0/addr5") ∧
    sanitize "bus0:addr5" = "bus0_addr5" ∧
    Application.new.driveCounter = 1 ∧
    (∀ app : Application,
      (app.getDriveName none).1 = "NVMeDrive" ++ toString app.driveCounter ∧
      (app.getDriveName none).2.driveCounter = (app.driveCounter + 1) % 2 ^ 64 ∧
      (app.driveCounter + 1 < 2 ^ 64 →
        (app.getDriveName none).2.driveCounter = app.driveCounter + 1)) := by
  refine ⟨?_, ?_, ?_, ?_, ?_, rfl, ?_⟩
  · intro driveName eid d hd
    have hd2 : d = Drive.built driveName eid := by
      simp [Drive.new] at hd
      exact hd.symm
    subst hd2
    exact ⟨rfl, regexReplaceAux_allowed false driveName.data⟩
  · intro driveName h
    unfold sanitize
    rw [regexReplaceAux_id false driveName.data h]
  · intro a bad b ha hne hbad hb
    unfold sanitize
    apply String.ext
    simp only [String.data_append]
    rw [regexReplaceAux_split a.data bad.data b.data ha hne hbad hb]
    simp
  · intro app
    constructor
    · rfl
    · show sanitize "NVMe_bus0/addr5" = "NVMe_bus0/addr5"
      decide
  · decide
  · intro app
    refine ⟨rfl, rfl, ?_⟩
    intro h
    show (app.driveCounter + 1) % 2 ^ 64 = app.driveCounter + 1
    exact Nat.mod_eq_of_lt h

/-- Witness of C10: the names of the claim and the first two fallback names. -/
theorem drive_name_sanitized_witness :
    (Drive.built "NVMe_bus0/addr5" 5).name = sanitize "NVMe_bus0/addr5" ∧
    sanitize "NVMe_bus0/addr5" = "NVMe_bus0/addr5" ∧
    sanitize ("bus0" ++ ":" ++ "addr5") = sanitize "bus0" ++ "_" ++ sanitize "addr5" ∧
    (Application.new.getDriveName none).2.driveCounter = 1 + 1 :=
  ⟨(drive_name_sanitized.1 "NVMe_bus0/addr5" 5 (Drive.built "NVMe_bus0/addr5" 5) rfl).1,
   drive_name_sanitized.2.1 "NVMe_bus0/addr5" (by decide),
   drive_name_sanitized.2.2.1 "bus0" ":" "addr5" (by decide) (by decide) (by decide)
     (by decide),
   ((drive_name_sanitized.2.2.2.2.2.2 Application.new).2.2 (by decide))⟩

end nvmemi
